import Mathlib

/-!
Verification of the NeerSetu groundwater backend core against its
specification.  The TypeScript sources are shallowly embedded: JS numbers
become `ℚ`, JS objects become insertion-ordered association lists, DB
queries become pure functions over a list of joined rows, and the
module-level nullable Fuse.js handle becomes an `Option` threaded
explicitly.  Every definition mirrors a named function of the repository;
the source file and line numbers are cited in the doc comments.
-/

namespace NeerSetu

/-- A JavaScript runtime value as it occurs in a groundwater data row:
a finite number (modelled by `ℚ`), the value `NaN`, a string, or
`null` (JS `null` / SQL `NULL`). -/
inductive Value where
  | num (q : ℚ)
  | nan
  | str (s : String)
  | null
deriving DecidableEq, Repr

/-- A JS object (`Record<string, unknown>`): an insertion-ordered list of
key-value pairs; genuine JS objects have pairwise distinct keys, which
theorems assume through a `Nodup` hypothesis where it matters. -/
abbrev Data := List (String × Value)

/-- Property read `obj[k]` for an object modelled as an association
list: the value at the first entry with key `k`. -/
def getKey {α : Type} (m : List (String × α)) (k : String) : Option α :=
  (m.find? (fun p => p.1 == k)).map (fun p => p.2)

/-- Property write `obj[k] = v`: overwrite in place when the key exists
(keeping its position), otherwise append the key at the end — JS object
insertion-order semantics for non-index string keys. -/
def setKey {α : Type} (m : List (String × α)) (k : String) (v : α) :
    List (String × α) :=
  if m.any (fun p => p.1 == k) then
    m.map (fun p => if p.1 == k then (k, v) else p)
  else m ++ [(k, v)]

/-- Property read `d[k]` on a data row object. -/
def lookupD (d : Data) (k : String) : Option Value :=
  getKey d k

/-- The running-sums object of `aggregateGroundwaterRecords`
(`aggregated: Record<string, number>`). -/
abbrev NumMap := List (String × ℚ)

/-- Property read `aggregated[key]`. -/
def getNum (m : NumMap) (k : String) : Option ℚ :=
  getKey m k

/-- Property write `aggregated[key] = v`. -/
def setNum (m : NumMap) (k : String) (v : ℚ) : NumMap :=
  setKey m k v

/-- Property write on a value object; used for the object-literal spread
in the aggregator's result (`{ ...aggregated, categoryTotal: ..., ... }`),
where a later literal entry overrides the value of a spread key but
keeps its position. -/
def setData (d : Data) (k : String) (v : Value) : Data :=
  setKey d k v

/-- The guard `typeof value === "number" && !isNaN(value)`
(`src/utils/aggregation.ts`, line 20): the numeric content of a value,
`none` for `NaN`, strings and `null`. -/
def numericPart : Value → Option ℚ
  | .num q => some q
  | _ => none

/-- `location` sub-object of the `GroundwaterRecord` interface
(`src/services/llm.ts`, lines 493-497). -/
structure LocationRef where
  id : String
  name : String
  type : String
deriving DecidableEq, Repr

/-- The `GroundwaterRecord` interface (`src/services/llm.ts`,
lines 492-500). -/
structure GroundwaterRecord where
  location : LocationRef
  year : String
  data : Data
deriving DecidableEq, Repr

/-- Inner loop of `aggregateGroundwaterRecords`
(`src/utils/aggregation.ts`, lines 19-23): fold one record's entries
into the running sums, `aggregated[key] = (aggregated[key] || 0) + value`
for each numeric entry. -/
def addEntries (agg : NumMap) (entries : Data) : NumMap :=
  entries.foldl
    (fun a p =>
      match numericPart p.2 with
      | some q => setNum a p.1 ((getNum a p.1).getD 0 + q)
      | none => a)
    agg

/-- Outer loop of `aggregateGroundwaterRecords`
(`src/utils/aggregation.ts`, lines 16-24), started from accumulator
`agg`. -/
def sumRecordsFrom (agg : NumMap) (records : List GroundwaterRecord) : NumMap :=
  records.foldl (fun a r => addEntries a r.data) agg

/-- `determineCategoryFromStage` (`src/utils/aggregation.ts`,
lines 78-84).  `!stage` is true exactly for `undefined` (here `none`)
and `0`, so both yield `"Unknown"`. -/
def determineCategoryFromStage (stage : Option ℚ) : String :=
  match stage with
  | none => "Unknown"
  | some q =>
    if q = 0 then "Unknown"
    else if q < 70 then "Safe"
    else if q < 90 then "Semi-Critical"
    else if q < 100 then "Critical"
    else "Over-Exploited"

/-- `aggregateGroundwaterRecords` (`src/utils/aggregation.ts`,
lines 7-39).  Empty input gives `null`; a single record is returned
unchanged; otherwise every numeric field is summed and the result object
is `{ ...aggregated, categoryTotal, categoryCommand: null,
categoryNonCommand: null, categoryPoorQuality: null }` with
`categoryTotal` recomputed from the summed `stageOfExtractionTotal`. -/
def aggregateGroundwaterRecords : List GroundwaterRecord → Option GroundwaterRecord
  | [] => none
  | [r] => some r
  | first :: rest =>
    let aggregated := sumRecordsFrom [] (first :: rest)
    let base : Data := aggregated.map (fun p => (p.1, Value.num p.2))
    let d1 := setData base "categoryTotal"
      (Value.str (determineCategoryFromStage (getNum aggregated "stageOfExtractionTotal")))
    let d2 := setData d1 "categoryCommand" Value.null
    let d3 := setData d2 "categoryNonCommand" Value.null
    let d4 := setData d3 "categoryPoorQuality" Value.null
    some { location := first.location, year := first.year, data := d4 }

/-- The four category keys the aggregator overrides in its result
object (`src/utils/aggregation.ts`, lines 31-36). -/
def categoryKeys : List String :=
  ["categoryTotal", "categoryCommand", "categoryNonCommand", "categoryPoorQuality"]

/-- Specification helper: the numeric value a record contributes at key
`k` for summation (absent or non-numeric entries contribute zero). -/
def numValAt (d : Data) (k : String) : ℚ :=
  match lookupD d k with
  | some v => (numericPart v).getD 0
  | none => 0

/-- Specification helper: the numeric content at a key, `none` when the
key is absent or its value is not a (non-`NaN`) number. -/
def numAt (d : Data) (k : String) : Option ℚ :=
  (lookupD d k).bind numericPart

/-- Specification helper: the sum of field `k` over a list of records,
absent fields contributing zero. -/
def sumField (records : List GroundwaterRecord) (k : String) : ℚ :=
  (records.map (fun r => numValAt r.data k)).sum

/-- A record's data object has pairwise-distinct keys (always true of an
actual JS object). -/
def keysNodup (r : GroundwaterRecord) : Prop :=
  (r.data.map (fun p => p.1)).Nodup

instance (r : GroundwaterRecord) : Decidable (keysNodup r) :=
  inferInstanceAs (Decidable ((r.data.map (fun p : String × Value => p.1)).Nodup))

/-- The result data object of the multi-record branch of
`aggregateGroundwaterRecords` (the spread-plus-overrides literal of
lines 29-37), named for reuse in statements and proofs. -/
def aggDataOf (recs : List GroundwaterRecord) : Data :=
  setData
    (setData
      (setData
        (setData
          ((sumRecordsFrom [] recs).map (fun p => (p.1, Value.num p.2)))
          "categoryTotal"
          (Value.str (determineCategoryFromStage
            (getNum (sumRecordsFrom [] recs) "stageOfExtractionTotal"))))
        "categoryCommand" Value.null)
      "categoryNonCommand" Value.null)
    "categoryPoorQuality" Value.null

/-! ## Temporal resolver (`src/utils/yearFiltering.ts`, embedded from the
source shown in `src/scripts/seedGroundwaterData.ts` lines 806-888) -/

/-- `YearFilterParams` (lines 808-813): all four fields optional. -/
structure YearFilterParams where
  year : Option String
  fromYear : Option String
  toYear : Option String
  specificYears : Option (List String)
deriving DecidableEq, Repr

/-- `FilteredYearsResult` (lines 815-819). -/
structure FilteredYearsResult where
  isHistorical : Bool
  yearsToQuery : List String
  targetYear : String
deriving DecidableEq, Repr

/-- JS truthiness of a `string | undefined` value: `undefined` and the
empty string are falsy. -/
def strTruthy : Option String → Bool
  | none => false
  | some s => s != ""

/-- JS `<` on strings: lexicographic comparison by code unit. -/
def charListLt : List Char → List Char → Bool
  | [], [] => false
  | [], _ :: _ => true
  | _ :: _, [] => false
  | a :: as, b :: bs =>
    if a.toNat < b.toNat then true
    else if b.toNat < a.toNat then false
    else charListLt as bs

/-- JS `a < b` on strings. -/
def jsStrLt (a b : String) : Bool := charListLt a.data b.data

/-- JS `a >= b` on strings (total order, so `¬ (a < b)`). -/
def jsStrGe (a b : String) : Bool := !jsStrLt a b

/-- JS `a <= b` on strings. -/
def jsStrLe (a b : String) : Bool := !jsStrLt b a

/-- The range predicate of `getFilteredYears` (lines 841-846) and
`filterRecordsByYear` (lines 867-872): inclusive bounds, one-sided when
only one bound is (truthily) present. -/
def rangePred (fromYear toYear : Option String) (y : String) : Bool :=
  if strTruthy fromYear && strTruthy toYear then
    jsStrGe y (fromYear.getD "") && jsStrLe y (toYear.getD "")
  else if strTruthy fromYear then jsStrGe y (fromYear.getD "")
  else if strTruthy toYear then jsStrLe y (toYear.getD "")
  else true

/-- The default target year, `year || "2024-2025"` (line 825); the
constant coincides with `LATEST_YEAR` (`src/services/llm.ts`,
line 502). -/
def defaultTargetYear (year : Option String) : String :=
  match year with
  | some y => if y == "" then "2024-2025" else y
  | none => "2024-2025"

/-- `getFilteredYears` (lines 821-854), with the `getAvailableYears()`
store read passed in as the `availableYears` argument.  Note the early
return (lines 827-833) fires only when `specificYears` is `undefined` —
an empty array is truthy in JS — and that it never consults
`availableYears`. -/
def getFilteredYears (params : YearFilterParams) (availableYears : List String) :
    FilteredYearsResult :=
  let targetYear := defaultTargetYear params.year
  if !strTruthy params.fromYear && !strTruthy params.toYear
      && params.specificYears.isNone then
    ⟨false, [targetYear], targetYear⟩
  else
    let yearsToQuery :=
      match params.specificYears with
      | some l =>
        if 0 < l.length then availableYears.filter (fun y => l.contains y)
        else if strTruthy params.fromYear || strTruthy params.toYear then
          availableYears.filter (rangePred params.fromYear params.toYear)
        else availableYears
      | none =>
        if strTruthy params.fromYear || strTruthy params.toYear then
          availableYears.filter (rangePred params.fromYear params.toYear)
        else availableYears
    ⟨true, yearsToQuery, targetYear⟩

/-! ## Location search (`src/services/locationSearch.ts`, captured as
`src/unnamed/part_001`) -/

/-- The `location_type` enum of the schema. -/
inductive LocationType where
  | COUNTRY
  | STATE
  | DISTRICT
  | TALUK
deriving DecidableEq, Repr

/-- Display form used where `locations.type` flows into the string-typed
`GroundwaterRecord.location.type`. -/
def LocationType.toStr : LocationType → String
  | .COUNTRY => "COUNTRY"
  | .STATE => "STATE"
  | .DISTRICT => "DISTRICT"
  | .TALUK => "TALUK"

/-- The `LocationRecord` interface (`part_001`, lines 6-12). -/
structure LocationRecord where
  id : String
  externalId : Option String
  name : String
  type : LocationType
  parentId : Option String
deriving DecidableEq, Repr

/-- One Fuse.js search hit: `{ item, score? }` (the library reports a
match distance in `[0,1]`, smaller is better, possibly absent). -/
structure FuseHit where
  item : LocationRecord
  score : Option ℚ
deriving DecidableEq, Repr

/-- The loaded Fuse.js index (`part_001`, lines 22-27): a third-party
approximate matcher over the cached location list, modelled by its
observable search function. -/
structure FuseIndex where
  search : String → List FuseHit

/-- `SearchResult` (`part_001`, lines 44-47). -/
structure SearchResult where
  location : LocationRecord
  score : ℚ
deriving DecidableEq, Repr

/-- JS `String.prototype.trim()` on the character list (whitespace
stripped from both ends). -/
def trimChars (l : List Char) : List Char :=
  ((l.dropWhile Char.isWhitespace).reverse.dropWhile Char.isWhitespace).reverse

/-- `s.replace(/[_-]/g, " ").trim()` — the query normalization used
throughout the search module. -/
def normalizeQuery (s : String) : String :=
  String.mk (trimChars (s.data.map (fun c => if c == '_' || c == '-' then ' ' else c)))

/-- JS `String.prototype.toLowerCase()`. -/
def jsToLower (s : String) : String :=
  String.mk (s.data.map Char.toLower)

/-- Parent-hint resolution of `searchLocation` (`part_001`,
lines 69-77 and 90-98): search the hint, keep hits of the parent level,
take the top 3, return their ids. -/
def parentFilterIds (f : FuseIndex) (parentName : String) (ptype : LocationType) :
    List String :=
  let normalizedParent := jsToLower (normalizeQuery parentName)
  ((((f.search normalizedParent).filter (fun r => r.item.type == ptype)).take 3).map
    (fun r => r.item.id))

/-- The advisory parent filter of `searchLocation` (`part_001`,
lines 79-86 and 100-107): applied only when the hint resolved to at
least one parent id, and discarded again when it would empty the result
set. -/
def applyParentFilter (filtered : List FuseHit) (matchingIds : List String) :
    List FuseHit :=
  if 0 < matchingIds.length then
    let parentFiltered :=
      filtered.filter (fun r => matchingIds.contains (r.item.parentId.getD ""))
    if 0 < parentFiltered.length then parentFiltered else filtered
  else filtered

/-- Body of `searchLocation` after the initialization check (`part_001`,
lines 60-113). -/
def searchLocationCore (f : FuseIndex) (query : String) (type? : Option LocationType)
    (parentName? : Option String) : List SearchResult :=
  let normalizedQuery := normalizeQuery query
  let results := f.search normalizedQuery
  let filtered :=
    match type? with
    | some t => results.filter (fun r => r.item.type == t)
    | none => results
  let filtered :=
    if strTruthy parentName? && (type? == some LocationType.DISTRICT) then
      applyParentFilter filtered
        (parentFilterIds f (parentName?.getD "") LocationType.STATE)
    else filtered
  let filtered :=
    if strTruthy parentName? && (type? == some LocationType.TALUK) then
      applyParentFilter filtered
        (parentFilterIds f (parentName?.getD "") LocationType.DISTRICT)
    else filtered
  (filtered.take 5).map (fun r => ⟨r.item, 1 - r.score.getD 0⟩)

/-- `searchLocation` (`part_001`, lines 49-114) including the
module-level nullable `fuse` handle; the thrown `Error` is modelled as
`Except.error` with the source's message. -/
def searchLocation (fuse : Option FuseIndex) (query : String)
    (type? : Option LocationType) (parentName? : Option String) :
    Except String (List SearchResult) :=
  match fuse with
  | none => Except.error "Location search not initialized. Call initLocationSearch first."
  | some f => Except.ok (searchLocationCore f query type? parentName?)

/-- `initLocationSearch` (`part_001`, lines 17-42): the retry loop,
with the outcome of each of the `retries` sequential `db.select` calls
supplied as `attempts` and the Fuse constructor as `mkIndex`.  It
returns the index built from the first successful fetch, and fails only
when every attempt failed. -/
def initLocationSearch (mkIndex : List LocationRecord → FuseIndex) :
    List (Except String (List LocationRecord)) → Except String FuseIndex
  | [] => Except.error "Failed to initialize location search after retries attempts"
  | Except.ok recs :: _ => Except.ok (mkIndex recs)
  | Except.error _ :: rest => initLocationSearch mkIndex rest

/-! ## Metric and column maps (`src/utils/metricHelpers.ts` and
`src/services/llm.ts`) -/

/-- `METRIC_CONFIG` (`src/utils/metricHelpers.ts`): per metric the data
field, display label and unit. -/
def METRIC_CONFIG : List (String × (String × String × String)) :=
  [("rainfall", ("rainfallTotal", "Rainfall", "mm")),
   ("recharge", ("rechargeTotalTotal", "Total Recharge", "ham")),
   ("extraction", ("draftTotalTotal", "Total Extraction", "ham")),
   ("extractable", ("extractableTotal", "Extractable Resources", "ham")),
   ("stage_of_extraction", ("stageOfExtractionTotal", "Stage of Extraction", "%")),
   ("loss", ("lossTotal", "Natural Discharge", "ham")),
   ("availability", ("availabilityFutureTotal", "Future Availability", "ham")),
   ("irrigation_extraction", ("draftAgricultureTotal", "Irrigation Extraction", "ham")),
   ("domestic_extraction", ("draftDomesticTotal", "Domestic Extraction", "ham")),
   ("industrial_extraction", ("draftIndustryTotal", "Industrial Extraction", "ham")),
   ("recharge_from_rainfall", ("rechargeRainfallTotal", "Rainfall Recharge", "ham")),
   ("net_balance", ("netBalance", "Net Balance", "ham"))]

/-- `metricToField` (`metricHelpers.ts`): `METRIC_CONFIG[metric]?.field
?? metric`. -/
def metricToField (metric : String) : String :=
  (((METRIC_CONFIG.find? (fun p => p.1 == metric)).map (fun p => p.2.1)).getD metric)

/-- The `fieldMap` of `fieldToColumn` (`src/services/llm.ts`,
lines 669-683). -/
def fieldToColumnMap : List (String × String) :=
  [("rainfall", "rainfall_total"),
   ("recharge", "recharge_total_total"),
   ("extraction", "draft_total_total"),
   ("draft", "draft_total_total"),
   ("extractable", "extractable_total"),
   ("stage", "stage_of_extraction_total"),
   ("stage_of_extraction", "stage_of_extraction_total"),
   ("loss", "loss_total"),
   ("availability", "availability_future_total"),
   ("irrigation_extraction", "draft_agriculture_total"),
   ("domestic_extraction", "draft_domestic_total"),
   ("industrial_extraction", "draft_industry_total"),
   ("recharge_from_rainfall", "recharge_rainfall_total")]

/-- `fieldToColumn` (`src/services/llm.ts`, lines 668-685):
`fieldMap[field.toLowerCase()] ?? null`. -/
def fieldToColumn (field : String) : Option String :=
  (fieldToColumnMap.find? (fun p => p.1 == jsToLower field)).map (fun p => p.2)

/-- Modelled from the spec: the drizzle schema file (`gw-schema.ts`) is
not among the captured sources; per the spec's data model and the usage
in `gwTools.ts`/`llm.ts` it maps every snake_case SQL column of
`groundwater_data` (see the migration in `src/unnamed/part_004`) to the
camelCase property of the row object.  Only the metric columns are
relevant to the claims. -/
def columnToProp : List (String × String) :=
  [("rainfall_total", "rainfallTotal"),
   ("recharge_total_total", "rechargeTotalTotal"),
   ("draft_total_total", "draftTotalTotal"),
   ("extractable_total", "extractableTotal"),
   ("stage_of_extraction_total", "stageOfExtractionTotal"),
   ("loss_total", "lossTotal"),
   ("availability_future_total", "availabilityFutureTotal"),
   ("draft_agriculture_total", "draftAgricultureTotal"),
   ("draft_domestic_total", "draftDomesticTotal"),
   ("draft_industry_total", "draftIndustryTotal"),
   ("recharge_rainfall_total", "rechargeRainfallTotal")]

/-- Row property addressed by a SQL column name. -/
def colProp (col : String) : String :=
  ((columnToProp.find? (fun p => p.1 == col)).map (fun p => p.2)).getD col

/-! ## Ranking (`src/services/llm.ts` `getTopLocationsByField` and the
historical branch of `getTopLocationsTool` in `src/services/gwTools.ts`) -/

/-- One row of `groundwater_data` inner-joined with its `locations` row;
`data` is the groundwater row object. -/
structure DbRow where
  location : LocationRecord
  year : String
  data : Data
deriving DecidableEq, Repr

/-- The read-only store: the joined rows. -/
abbrev Database := List DbRow

/-- The number stored in a double-precision column of a row, `none` for
SQL `NULL` (the schema in `part_004` types every metric column
`double precision`, so a non-null value is numeric). -/
def columnNum (row : DbRow) (col : String) : Option ℚ :=
  match lookupD row.data (colProp col) with
  | some (Value.num q) => some q
  | _ => none

/-- SQL `isNotNull(groundwater_data.<col>)`. -/
def columnNotNull (row : DbRow) (col : String) : Bool :=
  (columnNum row col).isSome

/-- The `order` parameter, `"asc" | "desc"`. -/
inductive SortOrder where
  | asc
  | desc
deriving DecidableEq, Repr

/-- The SQL `ORDER BY` relation of `getTopLocationsByField`:
by the metric column, descending = highest first. -/
def rowLe (col : String) (order : SortOrder) (a b : DbRow) : Prop :=
  match order with
  | .desc => (columnNum b col).getD 0 ≤ (columnNum a col).getD 0
  | .asc => (columnNum a col).getD 0 ≤ (columnNum b col).getD 0

instance (col : String) (order : SortOrder) : DecidableRel (rowLe col order) :=
  fun a b =>
    match order with
    | .desc => inferInstanceAs (Decidable ((columnNum b col).getD 0 ≤ (columnNum a col).getD 0))
    | .asc => inferInstanceAs (Decidable ((columnNum a col).getD 0 ≤ (columnNum b col).getD 0))

instance (col : String) (order : SortOrder) : IsTotal DbRow (rowLe col order) :=
  ⟨fun a b => by cases order <;> simp only [rowLe] <;> exact le_total _ _⟩

instance (col : String) (order : SortOrder) : IsTrans DbRow (rowLe col order) :=
  ⟨fun a b c hab hbc => by
    cases order
    · simp only [rowLe] at *; exact le_trans hab hbc
    · simp only [rowLe] at *; exact le_trans hbc hab⟩

/-- `getTopLocationsByField` (`src/services/llm.ts`, lines 563-592) as a
pure function of the store: unknown field gives `[]`; otherwise filter
to the requested location type and year with a non-null metric column,
order by that column (`desc` = highest first), truncate to `limit`.
SQL leaves the order of ties unspecified; it is modelled by a stable
sort, which fixes one of the permitted outcomes. -/
def getTopLocationsByField (db : Database) (field : String)
    (locationType : LocationType) (order : SortOrder) (limit : Nat)
    (year : String) : List GroundwaterRecord :=
  match fieldToColumn field with
  | none => []
  | some columnName =>
    let cand := db.filter (fun row =>
      row.location.type == locationType && row.year == year
        && columnNotNull row columnName)
    let sorted := List.insertionSort (rowLe columnName order) cand
    (sorted.take limit).map (fun row =>
      ⟨⟨row.location.id, row.location.name, row.location.type.toStr⟩, row.year, row.data⟩)

/-- One entry of `yearlyRankings[y]` (`gwTools.ts`, lines 411-420). -/
structure RankEntry where
  rank : Nat
  name : String
  value : Value
  category : Option Value
deriving DecidableEq, Repr

/-- One entry of `aggregatedData` (`gwTools.ts`, lines 423-431). -/
structure AggEntry where
  name : String
  avgValue : ℚ
  minValue : ℚ
  maxValue : ℚ
deriving DecidableEq, Repr

/-- JS `Number(value)` as used at `gwTools.ts` line 418.  There the
argument is always a non-null value of a double-precision column
(guaranteed by the `isNotNull` filter inside `getTopLocationsByField`),
so only the `.num` case is reachable; `null` maps to 0 as in JS and the
unreachable remaining cases default to 0. -/
def jsNumber : Value → ℚ
  | .num q => q
  | _ => 0

/-- The per-record accumulator mutation (`gwTools.ts`, lines 415-418):
create the `{name, values: []}` slot on first encounter, then push the
numeric value unless it is `null`. -/
def accumulateRecord (aggs : List (String × List ℚ)) (name : String) (value : Value) :
    List (String × List ℚ) :=
  let aggs1 := if aggs.any (fun p => p.1 == name) then aggs else aggs ++ [(name, [])]
  if value == Value.null then aggs1
  else aggs1.map (fun p => if p.1 == name then (p.1, p.2 ++ [jsNumber value]) else p)

/-- The `records.map((r, i) => ...)` body of the per-year loop
(`gwTools.ts`, lines 411-420), written as structural recursion over the
records with the running index `i` explicit: build the year's ranking
entries (rank `i+1`, name, metric value `?? null`, `categoryTotal`)
while mutating the accumulator. -/
def yearEntriesFrom (fieldKey : String) (i : Nat)
    (acc : List (String × List ℚ) × List RankEntry) :
    List GroundwaterRecord → List (String × List ℚ) × List RankEntry
  | [] => acc
  | r :: rest =>
    yearEntriesFrom fieldKey (i + 1)
      (accumulateRecord acc.1 r.location.name
        ((lookupD r.data fieldKey).getD Value.null),
       acc.2 ++ [⟨i + 1, r.location.name, (lookupD r.data fieldKey).getD Value.null,
         lookupD r.data "categoryTotal"⟩])
      rest

/-- One year's processing, starting from the running accumulator. -/
def yearEntries (aggs0 : List (String × List ℚ)) (records : List GroundwaterRecord)
    (fieldKey : String) : List (String × List ℚ) × List RankEntry :=
  yearEntriesFrom fieldKey 0 (aggs0, []) records

/-- `Math.min(...values)` for a non-empty list (the empty case is
guarded by `values.length` in the source and defaults to 0). -/
def listMin : List ℚ → ℚ
  | [] => 0
  | x :: xs => xs.foldl min x

/-- `Math.max(...values)`. -/
def listMax : List ℚ → ℚ
  | [] => 0
  | x :: xs => xs.foldl max x

/-- The `aggregatedData` map step (`gwTools.ts`, lines 424-431):
avg/min/max of the accumulated values, 0 for a location that never
contributed a value. -/
def toAggEntry (p : String × List ℚ) : AggEntry :=
  ⟨p.1,
   if 0 < p.2.length then p.2.foldl (· + ·) 0 / p.2.length else 0,
   if 0 < p.2.length then listMin p.2 else 0,
   if 0 < p.2.length then listMax p.2 else 0⟩

/-- The JS stable sort comparator of `aggregatedData`
(`gwTools.ts`, lines 432-434) as a relation: `desc` puts larger
averages first. -/
def aggLe (order : SortOrder) (a b : AggEntry) : Prop :=
  match order with
  | .desc => b.avgValue ≤ a.avgValue
  | .asc => a.avgValue ≤ b.avgValue

instance (order : SortOrder) : DecidableRel (aggLe order) :=
  fun a b =>
    match order with
    | .desc => inferInstanceAs (Decidable (b.avgValue ≤ a.avgValue))
    | .asc => inferInstanceAs (Decidable (a.avgValue ≤ b.avgValue))

/-- The historical (multi-year) branch of `getTopLocationsTool`
(`src/services/gwTools.ts`, lines 396-444), as a pure function of the
store: returns the pair (`aggregatedData`, `trendData`). -/
def getTopLocationsHistorical (db : Database) (metric : String) (t : LocationType)
    (order : SortOrder) (limit : Nat) (yearsToQuery : List String) :
    List AggEntry × List (String × List (String × Value)) :=
  let fieldKey := metricToField metric
  let folded := yearsToQuery.foldl
    (fun (acc : List (String × List ℚ) × List (String × List RankEntry)) y =>
      let records := getTopLocationsByField db metric t order (limit * 2) y
      let ye := yearEntries acc.1 records fieldKey
      (ye.1, acc.2 ++ [(y, ye.2)]))
    ([], [])
  let aggregatedData :=
    (List.insertionSort (aggLe order) (folded.1.map toAggEntry)).take limit
  let trendData := yearsToQuery.map (fun y =>
    (y, (aggregatedData.take 5).map (fun loc =>
      (loc.name,
       ((((folded.2.find? (fun p => p.1 == y)).map (fun p => p.2)).bind
           (fun es => es.find? (fun e => e.name == loc.name))).map
         (fun e => e.value)).getD Value.null))))
  (aggregatedData, trendData)

/-! ## Specification-side mirror of the multi-year ranking (written from
the claim's words, to be proved equal to `getTopLocationsHistorical`) -/

/-- Names in order of first appearance that are not already in `seen`. -/
def firstAppear (seen : List String) : List (String × Value) → List String
  | [] => []
  | p :: ps =>
    if seen.contains p.1 then firstAppear seen ps
    else p.1 :: firstAppear (seen ++ [p.1]) ps

/-- The non-null metric values recorded under a name, in order. -/
def valsFor (pairs : List (String × Value)) (n : String) : List ℚ :=
  (pairs.filter (fun p => p.1 == n && !(p.2 == Value.null))).map (fun p => jsNumber p.2)

/-- The (name, metric value `?? null`) pairs contributed by one year's
fetched records, in order. -/
def pairsOf (records : List GroundwaterRecord) (fieldKey : String) :
    List (String × Value) :=
  records.map (fun r => (r.location.name, (lookupD r.data fieldKey).getD Value.null))

/-- The accumulator after a sequence of (name, value) contributions. -/
def accumulateAll (acc : List (String × List ℚ))
    (pairs : List (String × Value)) : List (String × List ℚ) :=
  pairs.foldl (fun a p => accumulateRecord a p.1 p.2) acc

/-- The ranking entries of one year starting at index `i`, written
compositionally. -/
def entriesFrom (fieldKey : String) (i : Nat) :
    List GroundwaterRecord → List RankEntry
  | [] => []
  | r :: rest =>
    ⟨i + 1, r.location.name, (lookupD r.data fieldKey).getD Value.null,
     lookupD r.data "categoryTotal"⟩ :: entriesFrom fieldKey (i + 1) rest

/-- The ranking entries of one year. -/
def entriesOf (records : List GroundwaterRecord) (fieldKey : String) :
    List RankEntry :=
  entriesFrom fieldKey 0 records

/-- The multi-year ranking as the specification describes it: for every
year in scope fetch the top `k*2` locations by the metric, accumulate
each location's per-year metric values, compute per-location avg/min/max
across the years in which the location appeared, sort by average in the
requested order, truncate to `k`, and build a year-indexed trend series
restricted to the top 5 locations by final average. -/
def topKMultiSpec (db : Database) (metric : String) (t : LocationType)
    (order : SortOrder) (k : Nat) (years : List String) :
    List AggEntry × List (String × List (String × Value)) :=
  let fieldKey := metricToField metric
  let fetched := years.map (fun y => (y, getTopLocationsByField db metric t order (k * 2) y))
  let pairs := (fetched.map (fun p =>
    p.2.map (fun r => (r.location.name, (lookupD r.data fieldKey).getD Value.null)))).flatten
  let names := firstAppear [] pairs
  let aggregated :=
    (List.insertionSort (aggLe order)
      (names.map (fun n => toAggEntry (n, valsFor pairs n)))).take k
  let trend := years.map (fun y =>
    (y, (aggregated.take 5).map (fun loc =>
      (loc.name,
       ((((fetched.find? (fun p => p.1 == y)).map (fun p => p.2)).bind
           (fun rs => (entriesOf rs fieldKey).find? (fun e => e.name == loc.name))).map
         (fun e => e.value)).getD Value.null))))
  (aggregated, trend)

/-! ## Concrete sample inputs used by the witness theorems -/

/-- Two raw rows of one state and year, the spec's worked example:
extraction 10 and 15. -/
def rawRecord1 : GroundwaterRecord :=
  ⟨⟨"L1", "Alpha", "STATE"⟩, "2024-2025",
   [("draftTotalTotal", Value.num 10), ("stageOfExtractionTotal", Value.num 40),
    ("categoryTotal", Value.str "Safe")]⟩

/-- Second raw row of the same location and year. -/
def rawRecord2 : GroundwaterRecord :=
  ⟨⟨"L1", "Alpha", "STATE"⟩, "2024-2025",
   [("draftTotalTotal", Value.num 15), ("stageOfExtractionTotal", Value.num 45)]⟩

/-- A loaded index over an empty catalog: every search misses. -/
def fuseEmptyIndex : FuseIndex :=
  ⟨fun _ => []⟩

/-- A district of state `S1` used by the parent-hint witness. -/
def sampleDistrict : LocationRecord :=
  ⟨"D1", none, "East Town", LocationType.DISTRICT, some "S1"⟩

/-- An index that recognizes only the district query `"east town"`;
any parent hint resolves to nothing. -/
def sampleFuse : FuseIndex :=
  ⟨fun q => if q == "east town" then [⟨sampleDistrict, some 0⟩] else []⟩

/-- A small store: four states with a `draft_total_total` value for
2024-2025, one state with that column NULL, one district, and one state
row for 2016-2017. -/
def sampleDb : Database :=
  [⟨⟨"S1", none, "StateA", LocationType.STATE, some "C0"⟩, "2024-2025",
     [("draftTotalTotal", Value.num 10)]⟩,
   ⟨⟨"S2", none, "StateB", LocationType.STATE, some "C0"⟩, "2024-2025",
     [("draftTotalTotal", Value.num 30)]⟩,
   ⟨⟨"S3", none, "StateC", LocationType.STATE, some "C0"⟩, "2024-2025",
     [("draftTotalTotal", Value.num 20)]⟩,
   ⟨⟨"S4", none, "StateD", LocationType.STATE, some "C0"⟩, "2024-2025",
     [("draftTotalTotal", Value.num 40)]⟩,
   ⟨⟨"S5", none, "StateE", LocationType.STATE, some "C0"⟩, "2024-2025",
     [("rainfallTotal", Value.num 5)]⟩,
   ⟨⟨"D1", none, "East Town", LocationType.DISTRICT, some "S1"⟩, "2024-2025",
     [("draftTotalTotal", Value.num 7)]⟩,
   ⟨⟨"S1", none, "StateA", LocationType.STATE, some "C0"⟩, "2016-2017",
     [("draftTotalTotal", Value.num 12)]⟩]

/-! ## Lemmas about the JS object model -/

theorem findCons_pos {α : Type} (pred : α → Bool) (a : α) (l : List α)
    (h : pred a = true) : (a :: l).find? pred = some a := by
  simp [List.find?, h]

theorem findCons_neg {α : Type} (pred : α → Bool) (a : α) (l : List α)
    (h : pred a = false) : (a :: l).find? pred = l.find? pred := by
  simp [List.find?, h]

theorem find?_set_self {α : Type} (m : List (String × α)) (k : String) (v : α)
    (h : m.any (fun p => p.1 == k) = true) :
    (m.map (fun p => if p.1 == k then (k, v) else p)).find? (fun p => p.1 == k) =
      some (k, v) := by
  induction m with
  | nil => simp at h
  | cons p ps ih =>
    rw [List.map_cons]
    by_cases hp : (p.1 == k) = true
    · rw [if_pos hp, findCons_pos (fun p => p.1 == k) (k, v) _ (by simp)]
    · have h' : ps.any (fun p => p.1 == k) = true := by
        simp only [List.any_cons, Bool.or_eq_true] at h
        exact h.resolve_left hp
      simp only [Bool.not_eq_true] at hp
      rw [if_neg (by simp [hp]), findCons_neg (fun p => p.1 == k) p _ hp]
      exact ih h'

theorem find?_set_ne {α : Type} (m : List (String × α)) (k k' : String) (v : α)
    (h : k' ≠ k) :
    (m.map (fun p => if p.1 == k then (k, v) else p)).find? (fun p => p.1 == k') =
      m.find? (fun p => p.1 == k') := by
  induction m with
  | nil => rfl
  | cons p ps ih =>
    rw [List.map_cons]
    by_cases hp : (p.1 == k) = true
    · have hpk : p.1 = k := by simpa using hp
      have h1 : ((k, v).1 == k') = false := by simpa using fun he => h he.symm
      have h2 : (p.1 == k') = false := by rw [hpk]; simpa using fun he => h he.symm
      rw [if_pos hp, findCons_neg (fun p => p.1 == k') (k, v) _ h1,
        findCons_neg (fun p => p.1 == k') p _ h2]
      exact ih
    · rw [if_neg hp]
      by_cases hq : (p.1 == k') = true
      · rw [findCons_pos (fun p => p.1 == k') p _ hq,
          findCons_pos (fun p => p.1 == k') p _ hq]
      · simp only [Bool.not_eq_true] at hq
        rw [findCons_neg (fun p => p.1 == k') p _ hq,
          findCons_neg (fun p => p.1 == k') p _ hq]
        exact ih

theorem find?_append_or {α : Type} (l₁ l₂ : List α) (p : α → Bool) :
    (l₁ ++ l₂).find? p = (l₁.find? p).or (l₂.find? p) := by
  induction l₁ with
  | nil => simp
  | cons a l ih =>
    by_cases ha : p a = true
    · rw [List.cons_append, findCons_pos p a _ ha, findCons_pos p a _ ha]
      rfl
    · simp only [Bool.not_eq_true] at ha
      rw [List.cons_append, findCons_neg p a _ ha, findCons_neg p a _ ha]
      exact ih

theorem getKey_setKey {α : Type} (m : List (String × α)) (k k' : String) (v : α) :
    getKey (setKey m k v) k' = if k' = k then some v else getKey m k' := by
  by_cases hany : m.any (fun p => p.1 == k) = true
  · simp only [setKey, if_pos hany, getKey]
    by_cases hk : k' = k
    · subst hk
      rw [find?_set_self m k' v hany]
      simp
    · rw [find?_set_ne m k k' v hk, if_neg hk]
  · simp only [setKey, if_neg hany, getKey]
    have hnone : m.find? (fun p => p.1 == k) = none := by
      rw [List.find?_eq_none]
      intro q hq
      intro hqk
      apply hany
      rw [List.any_eq_true]
      exact ⟨q, hq, hqk⟩
    rw [find?_append_or]
    by_cases hk : k' = k
    · subst hk
      rw [hnone, Option.none_or, findCons_pos (fun p => p.1 == k') (k', v) _ (by simp)]
      simp
    · have h1 : ((k, v).1 == k') = false := by simpa using fun he => hk he.symm
      rw [findCons_neg (fun p => p.1 == k') (k, v) _ h1, List.find?_nil,
        Option.or_none, if_neg hk]

theorem lookupD_setData (d : Data) (k k' : String) (v : Value) :
    lookupD (setData d k v) k' = if k' = k then some v else lookupD d k' :=
  getKey_setKey d k k' v

theorem getNum_setNum (m : NumMap) (k k' : String) (v : ℚ) :
    getNum (setNum m k v) k' = if k' = k then some v else getNum m k' :=
  getKey_setKey m k k' v

theorem lookupD_cons (p : String × Value) (d : Data) (k : String) :
    lookupD (p :: d) k = if (p.1 == k) = true then some p.2 else lookupD d k := by
  by_cases hp : (p.1 == k) = true
  · rw [if_pos hp]
    simp only [lookupD, getKey]
    rw [findCons_pos (fun q => q.1 == k) p _ hp]
    rfl
  · rw [if_neg hp]
    simp only [Bool.not_eq_true] at hp
    simp only [lookupD, getKey]
    rw [findCons_neg (fun q => q.1 == k) p _ hp]

theorem lookupD_eq_none_of_not_mem (d : Data) (k : String)
    (h : ∀ q ∈ d, q.1 ≠ k) : lookupD d k = none := by
  have hnone : d.find? (fun p => p.1 == k) = none := by
    rw [List.find?_eq_none]
    intro q hq
    simpa using h q hq
  simp [lookupD, getKey, hnone]

theorem lookupD_mapNum (m : NumMap) (k : String) :
    lookupD (m.map (fun p => (p.1, Value.num p.2))) k =
      (getNum m k).map Value.num := by
  induction m with
  | nil => rfl
  | cons p ps ih =>
    rw [List.map_cons]
    by_cases hp : (p.1 == k) = true
    · simp only [lookupD, getKey, getNum]
      rw [findCons_pos (fun q => q.1 == k) ((p.1, Value.num p.2)) _ hp,
        findCons_pos (fun q => q.1 == k) p _ hp]
      rfl
    · simp only [Bool.not_eq_true] at hp
      simp only [lookupD, getKey, getNum] at *
      rw [findCons_neg (fun q => q.1 == k) ((p.1, Value.num p.2)) _ hp,
        findCons_neg (fun q => q.1 == k) p _ hp]
      exact ih

/-! ## Aggregation lemmas -/

theorem numValAt_eq_getD (d : Data) (k : String) :
    numValAt d k = (numAt d k).getD 0 := by
  cases h : lookupD d k with
  | none => simp [numValAt, numAt, h]
  | some v => cases v <;> simp [numValAt, numAt, h, numericPart]

theorem getNum_addEntries (a : NumMap) (d : Data) (k : String)
    (hd : (d.map (fun p => p.1)).Nodup) :
    getNum (addEntries a d) k =
      match numAt d k with
      | some q => some ((getNum a k).getD 0 + q)
      | none => getNum a k := by
  induction d generalizing a with
  | nil => simp [addEntries, numAt, lookupD, getKey]
  | cons p ps ih =>
    simp only [List.map_cons, List.nodup_cons] at hd
    have hstep : addEntries a (p :: ps) =
        addEntries (match numericPart p.2 with
          | some q => setNum a p.1 ((getNum a p.1).getD 0 + q)
          | none => a) ps := by
      simp [addEntries]
    by_cases hp : (p.1 == k) = true
    · have hpk : p.1 = k := by simpa using hp
      subst hpk
      have hnone : lookupD ps p.1 = none :=
        lookupD_eq_none_of_not_mem ps p.1
          (fun q hq he => hd.1 (he ▸ List.mem_map_of_mem (fun x => x.1) hq))
      have hnum : numAt (p :: ps) p.1 = numericPart p.2 := by
        simp [numAt, lookupD_cons]
      have hnone' : numAt ps p.1 = none := by simp [numAt, hnone]
      rw [hstep]
      cases hv : numericPart p.2 with
      | some q =>
        rw [ih _ hd.2]
        simp [hnum, hv, hnone', getNum_setNum]
      | none =>
        rw [ih _ hd.2]
        simp [hnum, hv, hnone']
    · have hpk : p.1 ≠ k := by simpa using hp
      have hnum : numAt (p :: ps) k = numAt ps k := by
        simp [numAt, lookupD_cons, hp]
      rw [hstep, hnum]
      cases hv : numericPart p.2 with
      | some q =>
        rw [ih _ hd.2]
        have hg : getNum (setNum a p.1 ((getNum a p.1).getD 0 + q)) k = getNum a k := by
          rw [getNum_setNum, if_neg (fun he => hpk he.symm)]
        cases numAt ps k <;> simp [hg]
      | none =>
        rw [ih _ hd.2]

theorem sumField_nil (k : String) : sumField [] k = 0 := rfl

theorem sumField_cons (r : GroundwaterRecord) (rs : List GroundwaterRecord)
    (k : String) :
    sumField (r :: rs) k = numValAt r.data k + sumField rs k := by
  simp [sumField]

theorem sumField_eq_zero_of_none (rs : List GroundwaterRecord) (k : String)
    (h : rs.any (fun r => (numAt r.data k).isSome) = false) :
    sumField rs k = 0 := by
  induction rs with
  | nil => rfl
  | cons r rest ih =>
    simp only [List.any_cons, Bool.or_eq_false_iff] at h
    have h1 : numAt r.data k = none := by
      cases hv : numAt r.data k with
      | none => rfl
      | some q => rw [hv] at h; simp at h
    rw [sumField_cons, numValAt_eq_getD, h1, ih h.2]
    simp

theorem getNum_sumRecordsFrom (recs : List GroundwaterRecord) (k : String) :
    ∀ a : NumMap, (∀ r ∈ recs, keysNodup r) →
    getNum (sumRecordsFrom a recs) k =
      if recs.any (fun r => (numAt r.data k).isSome) then
        some ((getNum a k).getD 0 + sumField recs k)
      else getNum a k := by
  induction recs with
  | nil => intro a _; simp [sumRecordsFrom, sumField]
  | cons r rs ih =>
    intro a h
    have h1 : keysNodup r := h r (List.mem_cons_self r rs)
    have h2 : ∀ x ∈ rs, keysNodup x := fun x hx => h x (List.mem_cons_of_mem r hx)
    have hstep : sumRecordsFrom a (r :: rs) = sumRecordsFrom (addEntries a r.data) rs := by
      simp [sumRecordsFrom]
    rw [hstep, ih _ h2]
    have hae := getNum_addEntries a r.data k h1
    cases hv : numAt r.data k with
    | some q =>
      rw [hv] at hae
      have hvv : numValAt r.data k = q := by rw [numValAt_eq_getD, hv]; rfl
      by_cases hany : rs.any (fun r => (numAt r.data k).isSome) = true
      · simp only [hany, if_true, hae, List.any_cons, hv, Option.isSome_some,
          Bool.true_or, if_true, sumField_cons, hvv, Option.getD_some]
        rw [add_assoc]
      · simp only [Bool.not_eq_true] at hany
        have hz := sumField_eq_zero_of_none rs k hany
        simp only [hany, Bool.false_eq_true, if_false, hae, List.any_cons, hv,
          Option.isSome_some, Bool.true_or, if_true, sumField_cons, hvv, hz]
        simp
    | none =>
      rw [hv] at hae
      have hvv : numValAt r.data k = 0 := by rw [numValAt_eq_getD, hv]; rfl
      simp only [List.any_cons, hv, Option.isSome_none, Bool.false_or, hae,
        sumField_cons, hvv, zero_add]

/-! ## C2: category thresholds -/

/-- C2: the category derived after aggregation is a four-way thresholding
of the summed stage of extraction — strictly below 70 (and nonzero) is
"Safe", at least 70 and below 90 is "Semi-Critical", at least 90 and
below 100 is "Critical", 100 or more is "Over-Exploited" — and a zero or
absent stage yields "Unknown", never "Safe"; in particular 85 yields
"Semi-Critical" and 105 yields "Over-Exploited". -/
theorem determineCategory_thresholds :
    (∀ q : ℚ, q ≠ 0 → q < 70 → determineCategoryFromStage (some q) = "Safe") ∧
    (∀ q : ℚ, 70 ≤ q → q < 90 → determineCategoryFromStage (some q) = "Semi-Critical") ∧
    (∀ q : ℚ, 90 ≤ q → q < 100 → determineCategoryFromStage (some q) = "Critical") ∧
    (∀ q : ℚ, 100 ≤ q → determineCategoryFromStage (some q) = "Over-Exploited") ∧
    determineCategoryFromStage none = "Unknown" ∧
    determineCategoryFromStage (some 0) = "Unknown" ∧
    determineCategoryFromStage (some 85) = "Semi-Critical" ∧
    determineCategoryFromStage (some 105) = "Over-Exploited" := by
  refine ⟨?_, ?_, ?_, ?_, rfl, by decide, by decide, by decide⟩
  · intro q h1 h2
    simp only [determineCategoryFromStage]
    rw [if_neg h1, if_pos h2]
  · intro q h1 h2
    simp only [determineCategoryFromStage]
    rw [if_neg (by intro h; rw [h] at h1; norm_num at h1),
      if_neg (by linarith), if_pos h2]
  · intro q h1 h2
    simp only [determineCategoryFromStage]
    rw [if_neg (by intro h; rw [h] at h1; norm_num at h1),
      if_neg (by linarith), if_neg (by linarith), if_pos h2]
  · intro q h1
    simp only [determineCategoryFromStage]
    rw [if_neg (by intro h; rw [h] at h1; norm_num at h1),
      if_neg (by linarith), if_neg (by linarith), if_neg (by linarith)]

/-- Witness for C2: stage 50 is classified "Safe". -/
theorem determineCategory_thresholds_witness :
    determineCategoryFromStage (some 50) = "Safe" :=
  determineCategory_thresholds.1 50 (by decide) (by decide)

/-! ## C7: idempotence of aggregation -/

/-- C7: feeding the aggregator's canonical output back through the
aggregation produces the same record — the merged record of a multi-row
location is a single record, and re-aggregating it never double-counts
any summed numeric field. -/
theorem aggregate_idempotent (records : List GroundwaterRecord) :
    ((aggregateGroundwaterRecords records).bind
      (fun c => aggregateGroundwaterRecords [c])) =
      aggregateGroundwaterRecords records := by
  cases records with
  | nil => rfl
  | cons r rs =>
    cases rs with
    | nil => rfl
    | cons r2 rs2 => rfl

/-! ## C1: the aggregator -/

theorem aggregate_multi_eq (r r2 : GroundwaterRecord) (rs2 : List GroundwaterRecord) :
    aggregateGroundwaterRecords (r :: r2 :: rs2) =
      some ⟨r.location, r.year, aggDataOf (r :: r2 :: rs2)⟩ := rfl

theorem getNum_sumRecords_eq (recs : List GroundwaterRecord) (k : String)
    (h : ∀ x ∈ recs, keysNodup x) :
    getNum (sumRecordsFrom [] recs) k =
      if recs.any (fun x => (numAt x.data k).isSome) then some (sumField recs k)
      else none := by
  have hz : getNum ([] : NumMap) k = none := rfl
  have := getNum_sumRecordsFrom recs k [] h
  rw [hz] at this
  simpa using this

theorem lookupD_aggDataOf_other (recs : List GroundwaterRecord) (k : String)
    (h1 : k ≠ "categoryTotal") (h2 : k ≠ "categoryCommand")
    (h3 : k ≠ "categoryNonCommand") (h4 : k ≠ "categoryPoorQuality") :
    lookupD (aggDataOf recs) k = (getNum (sumRecordsFrom [] recs) k).map Value.num := by
  simp only [aggDataOf, setData, lookupD]
  rw [getKey_setKey, if_neg h4, getKey_setKey, if_neg h3, getKey_setKey, if_neg h2,
    getKey_setKey, if_neg h1]
  exact lookupD_mapNum (sumRecordsFrom [] recs) k

theorem lookupD_aggDataOf_cats (recs : List GroundwaterRecord) :
    lookupD (aggDataOf recs) "categoryCommand" = some Value.null ∧
    lookupD (aggDataOf recs) "categoryNonCommand" = some Value.null ∧
    lookupD (aggDataOf recs) "categoryPoorQuality" = some Value.null ∧
    lookupD (aggDataOf recs) "categoryTotal" =
      some (Value.str (determineCategoryFromStage
        (getNum (sumRecordsFrom [] recs) "stageOfExtractionTotal"))) := by
  simp only [aggDataOf, setData, lookupD]
  refine ⟨?_, ?_, ?_, ?_⟩
  · rw [getKey_setKey, if_neg (by decide), getKey_setKey, if_neg (by decide),
      getKey_setKey, if_pos rfl]
  · rw [getKey_setKey, if_neg (by decide), getKey_setKey, if_pos rfl]
  · rw [getKey_setKey, if_pos rfl]
  · rw [getKey_setKey, if_neg (by decide), getKey_setKey, if_neg (by decide),
      getKey_setKey, if_neg (by decide), getKey_setKey, if_pos rfl]

/-- C1: on a non-empty list of raw records of one location and year, the
aggregator returns the single input unchanged when exactly one record is
given; with more than one record it returns one merged record carrying
the first record's location and year in which every numeric field
present in at least one input is the sum of that field over the inputs
(absent fields summed as zero), no numeric field appears that no input
defined, the raw per-sub-area category labels are nulled out, and a
single category is recomputed from the summed stage-of-extraction
field. -/
theorem aggregate_spec (r : GroundwaterRecord) (rs : List GroundwaterRecord)
    (hne : rs ≠ [])
    (hnodup : ∀ x ∈ r :: rs, keysNodup x)
    (hsame : ∀ x ∈ rs, x.location = r.location ∧ x.year = r.year) :
    aggregateGroundwaterRecords [r] = some r ∧
    ∃ out, aggregateGroundwaterRecords (r :: rs) = some out ∧
      out.location = r.location ∧ out.year = r.year ∧
      (∀ k, k ∉ categoryKeys →
        (((r :: rs).any (fun x => (numAt x.data k).isSome)) = true →
          lookupD out.data k = some (Value.num (sumField (r :: rs) k))) ∧
        (((r :: rs).any (fun x => (numAt x.data k).isSome)) = false →
          lookupD out.data k = none)) ∧
      (∀ k q, lookupD out.data k = some (Value.num q) →
        ((r :: rs).any (fun x => (numAt x.data k).isSome)) = true) ∧
      lookupD out.data "categoryCommand" = some Value.null ∧
      lookupD out.data "categoryNonCommand" = some Value.null ∧
      lookupD out.data "categoryPoorQuality" = some Value.null ∧
      lookupD out.data "categoryTotal" = some (Value.str (determineCategoryFromStage
        (if ((r :: rs).any (fun x => (numAt x.data "stageOfExtractionTotal").isSome))
         then some (sumField (r :: rs) "stageOfExtractionTotal")
         else none))) := by
  refine ⟨rfl, ?_⟩
  obtain ⟨r2, rs2, rfl⟩ : ∃ r2 rs2, rs = r2 :: rs2 := by
    cases rs with
    | nil => exact absurd rfl hne
    | cons a b => exact ⟨a, b, rfl⟩
  refine ⟨⟨r.location, r.year, aggDataOf (r :: r2 :: rs2)⟩,
    aggregate_multi_eq r r2 rs2, rfl, rfl, ?_, ?_, ?_, ?_, ?_, ?_⟩
  · intro k hk
    simp only [categoryKeys, List.mem_cons, List.mem_singleton, List.not_mem_nil,
      or_false, not_or] at hk
    have h1 := hk.1
    have h2 := hk.2.1
    have h3 := hk.2.2.1
    have h4 := hk.2.2.2
    constructor
    · intro hany
      rw [lookupD_aggDataOf_other _ k h1 h2 h3 h4,
        getNum_sumRecords_eq _ k hnodup, if_pos hany]
      rfl
    · intro hany
      rw [lookupD_aggDataOf_other _ k h1 h2 h3 h4,
        getNum_sumRecords_eq _ k hnodup, if_neg (by simp [hany])]
      rfl
  · intro k q hlk
    have hcats := lookupD_aggDataOf_cats (r :: r2 :: rs2)
    by_cases e1 : k = "categoryTotal"
    · rw [e1, hcats.2.2.2] at hlk; simp at hlk
    by_cases e2 : k = "categoryCommand"
    · rw [e2, hcats.1] at hlk; simp at hlk
    by_cases e3 : k = "categoryNonCommand"
    · rw [e3, hcats.2.1] at hlk; simp at hlk
    by_cases e4 : k = "categoryPoorQuality"
    · rw [e4, hcats.2.2.1] at hlk; simp at hlk
    rw [lookupD_aggDataOf_other _ k e1 e2 e3 e4,
      getNum_sumRecords_eq _ k hnodup] at hlk
    by_cases hany : ((r :: r2 :: rs2).any (fun x => (numAt x.data k).isSome)) = true
    · exact hany
    · rw [if_neg hany] at hlk
      simp at hlk
  · exact (lookupD_aggDataOf_cats _).1
  · exact (lookupD_aggDataOf_cats _).2.1
  · exact (lookupD_aggDataOf_cats _).2.2.1
  · rw [(lookupD_aggDataOf_cats _).2.2.2, getNum_sumRecords_eq _ _ hnodup]

/-- Witness for C1: the spec's worked example — two raw rows with
extraction (`draftTotalTotal`) 10 and 15 merge into one record whose
extraction is their sum, and a singleton aggregation is the identity. -/
theorem aggregate_spec_witness :
    aggregateGroundwaterRecords [rawRecord1] = some rawRecord1 ∧
    ∃ out, aggregateGroundwaterRecords [rawRecord1, rawRecord2] = some out ∧
      out.location = rawRecord1.location ∧ out.year = rawRecord1.year ∧
      (∀ k, k ∉ categoryKeys →
        ((([rawRecord1, rawRecord2]).any (fun x => (numAt x.data k).isSome)) = true →
          lookupD out.data k =
            some (Value.num (sumField [rawRecord1, rawRecord2] k))) ∧
        ((([rawRecord1, rawRecord2]).any (fun x => (numAt x.data k).isSome)) = false →
          lookupD out.data k = none)) ∧
      (∀ k q, lookupD out.data k = some (Value.num q) →
        (([rawRecord1, rawRecord2]).any (fun x => (numAt x.data k).isSome)) = true) ∧
      lookupD out.data "categoryCommand" = some Value.null ∧
      lookupD out.data "categoryNonCommand" = some Value.null ∧
      lookupD out.data "categoryPoorQuality" = some Value.null ∧
      lookupD out.data "categoryTotal" = some (Value.str (determineCategoryFromStage
        (if (([rawRecord1, rawRecord2]).any
              (fun x => (numAt x.data "stageOfExtractionTotal").isSome))
         then some (sumField [rawRecord1, rawRecord2] "stageOfExtractionTotal")
         else none))) :=
  aggregate_spec rawRecord1 [rawRecord2] (by decide)
    (by intro x hx; fin_cases hx <;> decide)
    (by intro x hx; fin_cases hx <;> exact ⟨rfl, rfl⟩)

/-! ## C3, C8, C10: the temporal resolver -/

/-- C3: with a non-empty explicit year list the resolver returns the
intersection of the available years with the requested list (unknown
years silently dropped, never an error), the explicit list taking
precedence over any range; with a range and no list it returns the
available years within the inclusive bounds present, one-sided ranges
being valid; and the historical flag is true exactly when a range or a
list was supplied, regardless of how many years survive filtering. -/
theorem getFilteredYears_spec (params : YearFilterParams)
    (availableYears : List String) :
    (∀ l : List String, params.specificYears = some l → l ≠ [] →
      getFilteredYears params availableYears =
        ⟨true, availableYears.filter (fun y => l.contains y),
         defaultTargetYear params.year⟩) ∧
    (params.specificYears = none →
      (strTruthy params.fromYear || strTruthy params.toYear) = true →
      getFilteredYears params availableYears =
        ⟨true, availableYears.filter (rangePred params.fromYear params.toYear),
         defaultTargetYear params.year⟩) ∧
    ((getFilteredYears params availableYears).isHistorical =
      (strTruthy params.fromYear || strTruthy params.toYear ||
        !params.specificYears.isNone)) ∧
    (∀ f t y : String, f ≠ "" → t ≠ "" →
      rangePred (some f) (some t) y = (jsStrGe y f && jsStrLe y t) ∧
      rangePred (some f) none y = jsStrGe y f ∧
      rangePred none (some t) y = jsStrLe y t) := by
  refine ⟨?_, ?_, ?_, ?_⟩
  · intro l hl hne
    have hlen : 0 < l.length := List.length_pos.mpr hne
    simp [getFilteredYears, hl, hlen]
  · intro hs hrange
    rcases Bool.or_eq_true_iff.mp hrange with hf | ht
    · simp [getFilteredYears, hs, hf]
    · simp [getFilteredYears, hs, ht]
  · cases hf : strTruthy params.fromYear <;>
      cases ht : strTruthy params.toYear <;>
      cases hs : params.specificYears <;>
      simp [getFilteredYears, hf, ht, hs]
  · intro f t y hf ht
    have hf' : strTruthy (some f) = true := by simp [strTruthy, hf]
    have ht' : strTruthy (some t) = true := by simp [strTruthy, ht]
    have hn : strTruthy none = false := rfl
    refine ⟨?_, ?_, ?_⟩ <;> simp [rangePred, hf', ht', hn]

/-- Witness for C3: the spec's range example — available years
2016-2017, 2018-2019, 2024-2025 with range [2016-2017, 2020-2021]
resolve to the two years inside the range, in historical mode; and an
explicit list containing an unknown year silently drops it. -/
theorem getFilteredYears_spec_witness :
    getFilteredYears ⟨none, some "2016-2017", some "2020-2021", none⟩
        ["2016-2017", "2018-2019", "2024-2025"] =
      ⟨true, ["2016-2017", "2018-2019"], "2024-2025"⟩ ∧
    getFilteredYears ⟨none, none, none, some ["2018-2019", "1999-2000"]⟩
        ["2016-2017", "2018-2019", "2024-2025"] =
      ⟨true, ["2018-2019"], "2024-2025"⟩ := by
  constructor
  · have h := (getFilteredYears_spec ⟨none, some "2016-2017", some "2020-2021", none⟩
      ["2016-2017", "2018-2019", "2024-2025"]).2.1 rfl (by decide)
    exact h.trans (by decide)
  · have h := (getFilteredYears_spec ⟨none, none, none, some ["2018-2019", "1999-2000"]⟩
      ["2016-2017", "2018-2019", "2024-2025"]).1 ["2018-2019", "1999-2000"] rfl
      (by decide)
    exact h.trans (by decide)

/-- C8 (counterexample): the claim says the default target year is the
most recent year of the supplied available list; but with
`availableYears = ["2016-2017"]` (whose most recent year is
"2016-2017") and an empty year spec, the resolver returns the
hard-coded "2024-2025" — the available list is not consulted at all. -/
theorem getFilteredYears_targetYear_cex :
    getFilteredYears ⟨none, none, none, none⟩ ["2016-2017"] =
      ⟨false, ["2024-2025"], "2024-2025"⟩ ∧
    ["2016-2017"].getLast? = some "2016-2017" ∧
    ("2024-2025" : String) ≠ "2016-2017" := by
  refine ⟨by decide, rfl, by decide⟩

/-- C8 (amended): when the year spec has no (truthy) year, range or
list, the resolver returns `historical = false` and a single target year
equal to the hard-coded constant `LATEST_YEAR = "2024-2025"`, for every
available-years list — the constant coincides with the most recent year
of the deployed dataset but is not computed from the list. -/
theorem getFilteredYears_default_latest (params : YearFilterParams)
    (availableYears : List String)
    (hy : params.year = none) (hf : strTruthy params.fromYear = false)
    (ht : strTruthy params.toYear = false) (hs : params.specificYears = none) :
    getFilteredYears params availableYears =
      ⟨false, ["2024-2025"], "2024-2025"⟩ := by
  simp [getFilteredYears, defaultTargetYear, hy, hf, ht, hs]

/-- Witness for C8 (amended): the empty spec over a singleton available
list yields the constant target year. -/
theorem getFilteredYears_default_latest_witness :
    getFilteredYears ⟨none, none, none, none⟩ ["2016-2017"] =
      ⟨false, ["2024-2025"], "2024-2025"⟩ :=
  getFilteredYears_default_latest ⟨none, none, none, none⟩ ["2016-2017"]
    rfl rfl rfl rfl

/-- C10 (counterexample): the claim says an empty explicit list always
yields all available years; but when a range accompanies the empty list
the range filter still applies, and can even produce zero years. -/
theorem getFilteredYears_emptyList_cex :
    getFilteredYears ⟨none, some "2020-2021", none, some []⟩ ["2016-2017"] =
      ⟨true, [], "2024-2025"⟩ ∧
    ([] : List String) ≠ ["2016-2017"] := by
  refine ⟨by decide, by decide⟩

/-- C10 (amended): an empty explicit year list still switches the
resolver into historical mode and applies no list filtering; when no
(truthy) range bound accompanies it the entire available list is
returned (not zero years and not single-year mode), while an
accompanying range still applies its filter. -/
theorem getFilteredYears_emptyList (params : YearFilterParams)
    (availableYears : List String)
    (hs : params.specificYears = some []) :
    (strTruthy params.fromYear = false → strTruthy params.toYear = false →
      getFilteredYears params availableYears =
        ⟨true, availableYears, defaultTargetYear params.year⟩) ∧
    ((strTruthy params.fromYear || strTruthy params.toYear) = true →
      getFilteredYears params availableYears =
        ⟨true, availableYears.filter (rangePred params.fromYear params.toYear),
         defaultTargetYear params.year⟩) := by
  constructor
  · intro hf ht
    simp [getFilteredYears, hs, hf, ht]
  · intro hrange
    rcases Bool.or_eq_true_iff.mp hrange with hf | ht
    · simp [getFilteredYears, hs, hf]
    · simp [getFilteredYears, hs, ht]

/-- Witness for C10 (amended): an empty list and no range return all
available years in historical mode. -/
theorem getFilteredYears_emptyList_witness :
    getFilteredYears ⟨none, none, none, some []⟩ ["2016-2017", "2018-2019"] =
      ⟨true, ["2016-2017", "2018-2019"], "2024-2025"⟩ :=
  (getFilteredYears_emptyList ⟨none, none, none, some []⟩
    ["2016-2017", "2018-2019"] rfl).1 rfl rfl

/-! ## C9: initialization vs. zero matches -/

theorem applyParentFilter_nil (ids : List String) :
    applyParentFilter [] ids = [] := by
  simp [applyParentFilter]

/-- C9: every resolution invoked before the catalog was ever
successfully loaded fails with the "not initialized" error; after a
successful load, a query matching nothing yields the empty result list
(never an error); and the retry loop errors out only when every attempt
failed, returning the index of the first successful fetch otherwise. -/
theorem searchLocation_initialized_behavior :
    (∀ query type? parentName?,
      searchLocation none query type? parentName? =
        Except.error
          "Location search not initialized. Call initLocationSearch first.") ∧
    (∀ (f : FuseIndex) query type? parentName?,
      f.search (normalizeQuery query) = [] →
      searchLocation (some f) query type? parentName? = Except.ok []) ∧
    (∀ (mkIndex : List LocationRecord → FuseIndex)
        (attempts : List (Except String (List LocationRecord))),
      (∀ a ∈ attempts, ∃ e, a = Except.error e) →
      ∃ e, initLocationSearch mkIndex attempts = Except.error e) ∧
    (∀ mkIndex recs rest,
      initLocationSearch mkIndex (Except.ok recs :: rest) =
        Except.ok (mkIndex recs)) := by
  refine ⟨fun _ _ _ => rfl, ?_, ?_, fun _ _ _ => rfl⟩
  · intro f query type? parentName? h
    have hcore : searchLocationCore f query type? parentName? = [] := by
      cases type? <;> simp [searchLocationCore, h, applyParentFilter_nil]
    simp [searchLocation, hcore]
  · intro mkIndex attempts hall
    induction attempts with
    | nil => exact ⟨_, rfl⟩
    | cons a rest ih =>
      obtain ⟨e, rfl⟩ := hall a (List.mem_cons_self a rest)
      exact ih (fun x hx => hall x (List.mem_cons_of_mem _ hx))

/-- Witness for C9: with a loaded (but empty-catalog) index, a query
matching nothing gives `ok []`, not an error. -/
theorem searchLocation_initialized_behavior_witness :
    searchLocation (some fuseEmptyIndex) "mysore" none none = Except.ok [] :=
  searchLocation_initialized_behavior.2.1 fuseEmptyIndex "mysore" none none rfl

/-! ## C4: advisory parent hint -/

theorem applyParentFilter_eq (filtered : List FuseHit) (ids : List String) :
    applyParentFilter filtered ids =
      if 0 < ids.length ∧
          0 < (filtered.filter
            (fun r => ids.contains (r.item.parentId.getD ""))).length
      then filtered.filter (fun r => ids.contains (r.item.parentId.getD ""))
      else filtered := by
  by_cases h1 : 0 < ids.length
  · by_cases h2 : 0 < (filtered.filter
        (fun r => ids.contains (r.item.parentId.getD ""))).length
    · simp [applyParentFilter, h1, h2]
    · simp [applyParentFilter, h1, h2]
  · simp [applyParentFilter, h1]

/-- C4: with a parent name hint and requested type DISTRICT (resp.
TALUK), the resolver independently resolves the hint at the STATE
(resp. DISTRICT) level, takes the top 3 candidate parent ids and keeps
only children whose `parentId` is among them — unless that filter would
empty the results (or the hint matched no parent at all), in which case
the unfiltered results are kept; hence a hint never turns a non-empty
result set into an empty one. -/
theorem searchLocation_parentHint (f : FuseIndex) (query p : String)
    (t pt : LocationType)
    (ht : (t = LocationType.DISTRICT ∧ pt = LocationType.STATE) ∨
          (t = LocationType.TALUK ∧ pt = LocationType.DISTRICT))
    (hp : p ≠ "") :
    (searchLocationCore f query (some t) (some p) =
      ((if 0 < (parentFilterIds f p pt).length ∧
            0 < (((f.search (normalizeQuery query)).filter
                (fun r => r.item.type == t)).filter
              (fun r => (parentFilterIds f p pt).contains
                (r.item.parentId.getD ""))).length
        then ((f.search (normalizeQuery query)).filter
                (fun r => r.item.type == t)).filter
              (fun r => (parentFilterIds f p pt).contains
                (r.item.parentId.getD ""))
        else (f.search (normalizeQuery query)).filter
              (fun r => r.item.type == t)).take 5).map
        (fun r => ⟨r.item, 1 - r.score.getD 0⟩)) ∧
    (searchLocationCore f query (some t) none ≠ [] →
      searchLocationCore f query (some t) (some p) ≠ []) := by
  have hps : strTruthy (some p) = true := by
    simp [strTruthy]
    exact hp
  have main : searchLocationCore f query (some t) (some p) =
      ((if 0 < (parentFilterIds f p pt).length ∧
            0 < (((f.search (normalizeQuery query)).filter
                (fun r => r.item.type == t)).filter
              (fun r => (parentFilterIds f p pt).contains
                (r.item.parentId.getD ""))).length
        then ((f.search (normalizeQuery query)).filter
                (fun r => r.item.type == t)).filter
              (fun r => (parentFilterIds f p pt).contains
                (r.item.parentId.getD ""))
        else (f.search (normalizeQuery query)).filter
              (fun r => r.item.type == t)).take 5).map
        (fun r => ⟨r.item, 1 - r.score.getD 0⟩) := by
    rcases ht with ⟨rfl, rfl⟩ | ⟨rfl, rfl⟩
    · simp only [searchLocationCore, hps, Bool.true_and, Option.getD_some]
      rw [if_neg (by decide), if_pos (by decide), applyParentFilter_eq]
    · simp only [searchLocationCore, hps, Bool.true_and, Option.getD_some]
      rw [if_pos (by decide), if_neg (by decide), applyParentFilter_eq]
  refine ⟨main, ?_⟩
  intro hne
  have hnohint : searchLocationCore f query (some t) none =
      (((f.search (normalizeQuery query)).filter
        (fun r => r.item.type == t)).take 5).map
        (fun r => ⟨r.item, 1 - r.score.getD 0⟩) := by
    simp [searchLocationCore, strTruthy]
  rw [hnohint] at hne
  have hbase : (f.search (normalizeQuery query)).filter
      (fun r => r.item.type == t) ≠ [] := by
    intro hemp
    apply hne
    rw [hemp]
    rfl
  rw [main]
  intro hemp
  rw [List.map_eq_nil_iff, List.take_eq_nil_iff] at hemp
  rcases hemp with h5 | hsel
  · exact absurd h5 (by decide)
  · by_cases hcond : 0 < (parentFilterIds f p pt).length ∧
        0 < (((f.search (normalizeQuery query)).filter
            (fun r => r.item.type == t)).filter
          (fun r => (parentFilterIds f p pt).contains
            (r.item.parentId.getD ""))).length
    · rw [if_pos hcond] at hsel
      rw [hsel] at hcond
      simp at hcond
    · rw [if_neg hcond] at hsel
      exact hbase hsel

/-- Witness for C4: a concrete index where the district query matches
but the parent hint resolves to no state — the hint is ignored and the
non-empty result set is preserved. -/
theorem searchLocation_parentHint_witness :
    searchLocationCore sampleFuse "east town" (some LocationType.DISTRICT)
      (some "karnataka") ≠ [] :=
  (searchLocation_parentHint sampleFuse "east town" "karnataka"
    LocationType.DISTRICT LocationType.STATE (Or.inl ⟨rfl, rfl⟩)
    (by decide)).2 (by decide)

/-! ## C6: single-year ranking -/

theorem columnNum_eq_numAt (row : DbRow) (col : String) :
    columnNum row col = numAt row.data (colProp col) := by
  unfold columnNum numAt
  cases h : lookupD row.data (colProp col) with
  | none => rfl
  | some v => cases v <;> rfl

theorem valsFor_cons (p : String × Value) (ps : List (String × Value)) (n : String) :
    valsFor (p :: ps) n =
      (if (p.1 == n && !(p.2 == Value.null)) = true then [jsNumber p.2] else []) ++
        valsFor ps n := by
  simp only [valsFor, List.filter_cons]
  split
  · simp [valsFor]
  · simp [valsFor]

theorem valsFor_cons_ne (p : String × Value) (ps : List (String × Value))
    (n : String) (hne : p.1 ≠ n) : valsFor (p :: ps) n = valsFor ps n := by
  rw [valsFor_cons]
  have hb : (p.1 == n) = false := by simpa using hne
  rw [hb]
  simp

theorem valsFor_cons_null (p : String × Value) (ps : List (String × Value))
    (n : String) (hv : p.2 = Value.null) : valsFor (p :: ps) n = valsFor ps n := by
  rw [valsFor_cons]
  have hb : (!(p.2 == Value.null)) = false := by simp [hv]
  rw [hb]
  simp

theorem valsFor_cons_push (p : String × Value) (ps : List (String × Value))
    (hv : ¬ p.2 = Value.null) :
    valsFor (p :: ps) p.1 = jsNumber p.2 :: valsFor ps p.1 := by
  rw [valsFor_cons]
  have hb : (p.1 == p.1 && !(p.2 == Value.null)) = true := by simp [hv]
  rw [hb]
  simp

theorem contains_of_append_false (seen : List String) (x n : String)
    (h : (seen ++ [x]).contains n = false) : seen.contains n = false := by
  by_contra hc
  rw [Bool.not_eq_false] at hc
  have hmem : n ∈ seen := List.elem_iff.mp hc
  have h2 : (seen ++ [x]).contains n = true :=
    List.elem_iff.mpr (List.mem_append_left _ hmem)
  rw [h] at h2
  exact Bool.false_ne_true h2

theorem firstAppear_not_seen (ps : List (String × Value)) :
    ∀ (seen : List String) (n : String),
    n ∈ firstAppear seen ps → seen.contains n = false := by
  induction ps with
  | nil => intro seen n h; simp [firstAppear] at h
  | cons p ps ih =>
    intro seen n h
    by_cases hc : seen.contains p.1 = true
    · rw [firstAppear, if_pos hc] at h
      exact ih seen n h
    · simp only [Bool.not_eq_true] at hc
      rw [firstAppear, hc] at h
      simp only [Bool.false_eq_true, if_false] at h
      rcases List.mem_cons.mp h with rfl | h2
      · exact hc
      · exact contains_of_append_false seen p.1 n (ih (seen ++ [p.1]) n h2)

theorem accumulateRecord_mem (acc : List (String × List ℚ)) (name : String)
    (value : Value) (hmem : acc.any (fun e => e.1 == name) = true) :
    accumulateRecord acc name value =
      if (value == Value.null) = true then acc
      else acc.map (fun e =>
        if e.1 == name then (e.1, e.2 ++ [jsNumber value]) else e) := by
  simp only [accumulateRecord, hmem, if_true]

theorem accumulateRecord_new (acc : List (String × List ℚ)) (name : String)
    (value : Value) (hmem : acc.any (fun e => e.1 == name) = false) :
    accumulateRecord acc name value =
      acc ++ [(name, if (value == Value.null) = true then []
        else [jsNumber value])] := by
  have hall : ∀ e ∈ acc, (e.1 == name) = false := by
    intro e he
    by_contra hb
    rw [Bool.not_eq_false] at hb
    have h2 : acc.any (fun e => e.1 == name) = true := List.any_eq_true.mpr ⟨e, he, hb⟩
    rw [hmem] at h2
    exact Bool.false_ne_true h2
  by_cases hv : (value == Value.null) = true
  · simp only [accumulateRecord, hmem, Bool.false_eq_true, if_false, hv, if_true]
  · simp only [accumulateRecord, hmem, Bool.false_eq_true, if_false, hv,
      List.map_append]
    rw [List.map_congr_left (fun e he => by rw [if_neg (by simp [hall e he])])]
    simp [List.map_id]

theorem accumulateAll_cons (acc : List (String × List ℚ)) (p : String × Value)
    (ps : List (String × Value)) :
    accumulateAll acc (p :: ps) = accumulateAll (accumulateRecord acc p.1 p.2) ps :=
  rfl

theorem accumulateAll_append (acc : List (String × List ℚ))
    (l1 l2 : List (String × Value)) :
    accumulateAll acc (l1 ++ l2) = accumulateAll (accumulateAll acc l1) l2 := by
  simp [accumulateAll, List.foldl_append]

theorem accumulateAll_eq (pairs : List (String × Value)) :
    ∀ acc : List (String × List ℚ),
    accumulateAll acc pairs =
      acc.map (fun e => (e.1, e.2 ++ valsFor pairs e.1)) ++
      (firstAppear (acc.map (fun e => e.1)) pairs).map
        (fun n => (n, valsFor pairs n)) := by
  induction pairs with
  | nil =>
    intro acc
    simp [accumulateAll, valsFor, firstAppear]
  | cons p ps ih =>
    intro acc
    rw [accumulateAll_cons]
    by_cases hmem : acc.any (fun e => e.1 == p.1) = true
    · have hcont : (acc.map (fun e => e.1)).contains p.1 = true := by
        rcases List.any_eq_true.mp hmem with ⟨e, he, hbe⟩
        have h1 : e.1 ∈ acc.map (fun e => e.1) := List.mem_map_of_mem _ he
        rw [beq_iff_eq.mp hbe] at h1
        exact List.elem_iff.mpr h1
      rw [firstAppear, if_pos hcont]
      by_cases hv : (p.2 == Value.null) = true
      · rw [accumulateRecord_mem acc p.1 p.2 hmem, if_pos hv, ih acc]
        have hvals : ∀ n, valsFor (p :: ps) n = valsFor ps n :=
          fun n => valsFor_cons_null p ps n (beq_iff_eq.mp hv)
        simp only [hvals]
      · have hv2 : ¬ p.2 = Value.null := by simpa using hv
        rw [accumulateRecord_mem acc p.1 p.2 hmem, if_neg hv,
          ih (acc.map (fun e => if e.1 == p.1 then (e.1, e.2 ++ [jsNumber p.2]) else e))]
        have hkeys : (acc.map (fun e =>
            if e.1 == p.1 then (e.1, e.2 ++ [jsNumber p.2]) else e)).map
              (fun e => e.1) = acc.map (fun e => e.1) := by
          rw [List.map_map]
          refine List.map_congr_left (fun e _ => ?_)
          by_cases he : (e.1 == p.1) = true <;> simp [Function.comp, he]
        rw [hkeys, List.map_map]
        congr 1
        · refine List.map_congr_left (fun e _ => ?_)
          by_cases he : (e.1 == p.1) = true
          · have hen : e.1 = p.1 := beq_iff_eq.mp he
            simp only [Function.comp, he, if_true]
            rw [hen, valsFor_cons_push p ps hv2]
            simp [List.append_assoc]
          · have hen : ¬ e.1 = p.1 := by simpa using he
            simp only [Function.comp, he, Bool.false_eq_true, if_false]
            rw [valsFor_cons_ne p ps e.1 (fun hh => hen hh.symm)]
        · refine List.map_congr_left (fun n hn => ?_)
          have hns : (acc.map (fun e => e.1)).contains n = false :=
            firstAppear_not_seen ps _ n hn
          have hne : ¬ p.1 = n := by
            intro he
            rw [← he, hcont] at hns
            simp at hns
          rw [valsFor_cons_ne p ps n hne]
    · have hmem' : acc.any (fun e => e.1 == p.1) = false := by
        cases h : acc.any (fun e => e.1 == p.1) with
        | false => rfl
        | true => exact absurd h hmem
      have hcont : (acc.map (fun e => e.1)).contains p.1 = false := by
        by_contra hb
        rw [Bool.not_eq_false] at hb
        obtain ⟨e, he, heq⟩ := List.mem_map.mp (List.elem_iff.mp hb)
        have h2 : acc.any (fun e => e.1 == p.1) = true :=
          List.any_eq_true.mpr ⟨e, he, beq_iff_eq.mpr heq⟩
        rw [hmem'] at h2
        exact Bool.false_ne_true h2
      have hall : ∀ e ∈ acc, (e.1 == p.1) = false := by
        intro e he
        by_contra hb
        rw [Bool.not_eq_false] at hb
        have h2 : acc.any (fun e => e.1 == p.1) = true :=
          List.any_eq_true.mpr ⟨e, he, hb⟩
        rw [hmem'] at h2
        exact Bool.false_ne_true h2
      have hfa : firstAppear (acc.map (fun e => e.1)) (p :: ps) =
          p.1 :: firstAppear ((acc.map (fun e => e.1)) ++ [p.1]) ps := by
        rw [firstAppear, hcont]
        simp
      rw [accumulateRecord_new acc p.1 p.2 hmem', hfa,
        ih (acc ++ [(p.1, if (p.2 == Value.null) = true then []
          else [jsNumber p.2])])]
      simp only [List.map_append, List.map_cons, List.map_nil]
      have hacc : acc.map (fun e => (e.1, e.2 ++ valsFor ps e.1)) =
          acc.map (fun e => (e.1, e.2 ++ valsFor (p :: ps) e.1)) := by
        refine List.map_congr_left (fun e he => ?_)
        have hen : ¬ e.1 = p.1 := by simpa using hall e he
        rw [valsFor_cons_ne p ps e.1 (fun hh => hen hh.symm)]
      have hhead : (if p.2 = Value.null then [] else [jsNumber p.2]) ++
            valsFor ps p.1 = valsFor (p :: ps) p.1 := by
        by_cases hv : p.2 = Value.null
        · rw [if_pos hv, valsFor_cons_null p ps p.1 hv]
          simp
        · rw [if_neg hv, valsFor_cons_push p ps hv]
          simp
      have htail : (firstAppear ((acc.map (fun e => e.1)) ++ [p.1]) ps).map
            (fun n => (n, valsFor ps n)) =
          (firstAppear ((acc.map (fun e => e.1)) ++ [p.1]) ps).map
            (fun n => (n, valsFor (p :: ps) n)) := by
        refine List.map_congr_left (fun n hn => ?_)
        have hns := firstAppear_not_seen ps _ n hn
        have hne : ¬ p.1 = n := by
          intro he
          have h2 : ((acc.map (fun e => e.1)) ++ [p.1]).contains n = true :=
            List.elem_iff.mpr (List.mem_append_right _ (by simp [he]))
          rw [hns] at h2
          exact Bool.false_ne_true h2
        rw [valsFor_cons_ne p ps n hne]
      rw [hacc, htail]
      simp [hhead]

theorem yearEntriesFrom_spec (fieldKey : String) (records : List GroundwaterRecord) :
    ∀ (i : Nat) (a : List (String × List ℚ)) (es : List RankEntry),
    yearEntriesFrom fieldKey i (a, es) records =
      (accumulateAll a (pairsOf records fieldKey),
       es ++ entriesFrom fieldKey i records) := by
  induction records with
  | nil =>
    intro i a es
    simp [yearEntriesFrom, accumulateAll, pairsOf, entriesFrom]
  | cons r rest ih =>
    intro i a es
    rw [yearEntriesFrom, ih]
    refine Prod.ext ?_ ?_
    · show accumulateAll
        (accumulateRecord a r.location.name ((lookupD r.data fieldKey).getD Value.null))
        (pairsOf rest fieldKey) =
        accumulateAll a (pairsOf (r :: rest) fieldKey)
      rw [show pairsOf (r :: rest) fieldKey =
          (r.location.name, (lookupD r.data fieldKey).getD Value.null) ::
            pairsOf rest fieldKey from rfl,
        accumulateAll_cons]
    · show (es ++ [⟨i + 1, r.location.name, (lookupD r.data fieldKey).getD Value.null,
          lookupD r.data "categoryTotal"⟩]) ++ entriesFrom fieldKey (i + 1) rest =
        es ++ entriesFrom fieldKey i (r :: rest)
      rw [entriesFrom, List.append_assoc]
      rfl

theorem yearEntries_spec (fieldKey : String) (records : List GroundwaterRecord)
    (a : List (String × List ℚ)) :
    yearEntries a records fieldKey =
      (accumulateAll a (pairsOf records fieldKey), entriesOf records fieldKey) := by
  rw [yearEntries, yearEntriesFrom_spec]
  rfl

theorem histFold (db : Database) (metric : String) (t : LocationType)
    (order : SortOrder) (limit : Nat) (fieldKey : String) :
    ∀ (years : List String)
      (ae : List (String × List ℚ) × List (String × List RankEntry)),
    years.foldl
      (fun acc y =>
        ((yearEntries acc.1 (getTopLocationsByField db metric t order (limit * 2) y)
            fieldKey).1,
         acc.2 ++ [(y, (yearEntries acc.1 (getTopLocationsByField db metric t order
            (limit * 2) y) fieldKey).2)]))
      ae =
    (accumulateAll ae.1 ((years.map (fun y =>
        pairsOf (getTopLocationsByField db metric t order (limit * 2) y)
          fieldKey)).flatten),
     ae.2 ++ years.map (fun y =>
       (y, entriesOf (getTopLocationsByField db metric t order (limit * 2) y)
         fieldKey))) := by
  intro years
  induction years with
  | nil =>
    intro ae
    simp [accumulateAll]
  | cons y ys ih =>
    intro ae
    rw [List.foldl_cons, yearEntries_spec, ih]
    refine Prod.ext ?_ ?_
    · show accumulateAll (accumulateAll ae.1
          (pairsOf (getTopLocationsByField db metric t order (limit * 2) y) fieldKey))
          ((ys.map (fun y => pairsOf (getTopLocationsByField db metric t order
            (limit * 2) y) fieldKey)).flatten) = _
      rw [← accumulateAll_append]
      simp [List.flatten_cons]
    · simp [List.append_assoc]

theorem find?_keyed {β : Type} (years : List String) (g : String → β) (y : String) :
    (years.map (fun y' => (y', g y'))).find? (fun p => p.1 == y) =
      (years.find? (fun y' => y' == y)).map (fun y' => (y', g y')) := by
  rw [List.find?_map]
  rfl

theorem trendValue_eq (years : List String) (rec : String → List GroundwaterRecord)
    (key : String) (y nm : String) :
    (((((years.map (fun y' => (y', entriesOf (rec y') key))).find?
        (fun p => p.1 == y)).map (fun p => p.2)).bind
      (fun es => es.find? (fun e => e.name == nm))).map (fun e => e.value)).getD
        Value.null =
    (((((years.map (fun y' => (y', rec y'))).find? (fun p => p.1 == y)).map
        (fun p => p.2)).bind
      (fun rs => (entriesOf rs key).find? (fun e => e.name == nm))).map
        (fun e => e.value)).getD Value.null := by
  rw [find?_keyed, find?_keyed]
  cases years.find? (fun y' => y' == y) <;> simp

end NeerSetu
